import Mathlib

set_option allowUnsafeReducibility true
attribute [local semireducible] Rat.add Rat.sub Rat.mul Rat.inv

/-!
Verification of the NexGen logistics dashboard data pipeline (`app.py`).

The pipeline is embedded shallowly: pandas float columns are modelled by
`PF` (a rational number, NaN, or a signed infinity), tables by lists of
structures carrying the CSV columns used by the pipeline, and the pandas
operations used in `load_data`, `create_kpi_metrics` and `show_alerts`
(`merge how=left`, `groupby/agg`, `Series.mode`, `pd.cut`, skip-NA `sum`
and `mean`, `replace(0, nan)`) by executable Lean functions with the same
semantics.
-/

/-- A pandas/numpy double as used by the pipeline: NaN (pandas null),
positive or negative infinity, or a finite value (modelled as a rational). -/
inductive PF where
  | nan : PF
  | pinf : PF
  | ninf : PF
  | fin : ℚ → PF
deriving DecidableEq, Repr

namespace PF

/-- `pd.isna` on a float value: true exactly on NaN (infinities are not null). -/
def isNan : PF → Bool
  | .nan => true
  | _ => false

/-- IEEE-754 addition on the modelled values. -/
def add : PF → PF → PF
  | .nan, _ => .nan
  | _, .nan => .nan
  | .pinf, .ninf => .nan
  | .ninf, .pinf => .nan
  | .pinf, _ => .pinf
  | _, .pinf => .pinf
  | .ninf, _ => .ninf
  | _, .ninf => .ninf
  | .fin a, .fin b => .fin (a + b)

/-- IEEE-754 subtraction on the modelled values. -/
def sub : PF → PF → PF
  | .nan, _ => .nan
  | _, .nan => .nan
  | .pinf, .pinf => .nan
  | .ninf, .ninf => .nan
  | .pinf, _ => .pinf
  | .ninf, _ => .ninf
  | _, .pinf => .ninf
  | _, .ninf => .pinf
  | .fin a, .fin b => .fin (a - b)

/-- IEEE-754 multiplication on the modelled values. -/
def mul : PF → PF → PF
  | .nan, _ => .nan
  | _, .nan => .nan
  | .pinf, .pinf => .pinf
  | .pinf, .ninf => .ninf
  | .ninf, .pinf => .ninf
  | .ninf, .ninf => .pinf
  | .pinf, .fin b => if 0 < b then .pinf else if b < 0 then .ninf else .nan
  | .fin a, .pinf => if 0 < a then .pinf else if a < 0 then .ninf else .nan
  | .ninf, .fin b => if 0 < b then .ninf else if b < 0 then .pinf else .nan
  | .fin a, .ninf => if 0 < a then .ninf else if a < 0 then .pinf else .nan
  | .fin a, .fin b => .fin (a * b)

/-- IEEE-754 division as numpy performs it on float columns: a finite
nonzero value divided by zero gives a signed infinity, and `0 / 0` is NaN
(the source suppresses the accompanying runtime warnings). -/
def div : PF → PF → PF
  | .nan, _ => .nan
  | _, .nan => .nan
  | .pinf, .pinf => .nan
  | .pinf, .ninf => .nan
  | .ninf, .pinf => .nan
  | .ninf, .ninf => .nan
  | .pinf, .fin b => if 0 ≤ b then .pinf else .ninf
  | .ninf, .fin b => if 0 ≤ b then .ninf else .pinf
  | .fin _, .pinf => .fin 0
  | .fin _, .ninf => .fin 0
  | .fin a, .fin b =>
      if b = 0 then (if 0 < a then .pinf else if a < 0 then .ninf else .nan)
      else .fin (a / b)

/-- Float comparison `x ≤ y` as pandas evaluates it on columns: any
comparison with NaN is `False`. -/
def leBool : PF → PF → Bool
  | .nan, _ => false
  | _, .nan => false
  | .ninf, _ => true
  | _, .pinf => true
  | .pinf, _ => false
  | _, .ninf => false
  | .fin a, .fin b => decide (a ≤ b)

/-- Float comparison `x < y` as pandas evaluates it: NaN compares `False`. -/
def ltBool : PF → PF → Bool
  | .nan, _ => false
  | _, .nan => false
  | .ninf, .ninf => false
  | .ninf, _ => true
  | .pinf, _ => false
  | .fin _, .pinf => true
  | .fin _, .ninf => false
  | .fin a, .fin b => decide (a < b)

end PF

/-- `pd.cut(x, bins, labels)` with the default `right=True`: walks the
consecutive bin-edge pairs and returns the label of the first half-open
interval `(lo, hi]` containing `x`; values outside every bin (including
NaN) get NaN, modelled as `none`. -/
def pdCut : PF → List PF → List String → Option String
  | x, lo :: hi :: bs, lab :: labs =>
      if PF.ltBool lo x && PF.leBool x hi then some lab
      else pdCut x (hi :: bs) labs
  | _, _, _ => none

/-- Row-wise `DataFrame.sum` with the default `skipna=True`: NaN entries
are dropped and the rest summed, an all-NaN row summing to `0`. -/
def pdSum (xs : List PF) : PF :=
  (xs.filter (fun x => !x.isNan)).foldl PF.add (PF.fin 0)

/-- `Series.mean` with the default `skipna=True`: NaN entries are dropped;
the mean of the remaining values, or NaN if none remain. -/
def pdMean (xs : List PF) : PF :=
  let vs := xs.filter (fun x => !x.isNan)
  if vs.isEmpty then PF.nan
  else PF.div (vs.foldl PF.add (PF.fin 0)) (PF.fin (vs.length : ℚ))

/-- `Series.replace(0, np.nan)` on a float column entry. -/
def replaceZeroNan (x : PF) : PF :=
  if x = PF.fin 0 then PF.nan else x

/-! ### The seven input tables (the columns the pipeline reads) -/

/-- A row of `orders.csv` (the columns used by the pipeline). -/
structure OrderRow where
  Order_ID : String
  Order_Value_INR : PF
  Promised_Delivery_Days : PF
deriving DecidableEq, Repr

/-- A row of `delivery_performance.csv`. -/
structure DeliveryRow where
  Order_ID : String
  Actual_Delivery_Days : PF
deriving DecidableEq, Repr

/-- A row of `routes_distance.csv` (the column used by the derivations). -/
structure RouteRow where
  Order_ID : String
  Distance_KM : PF
deriving DecidableEq, Repr

/-- A row of `cost_breakdown.csv`: the seven cost components. -/
structure CostRow where
  Order_ID : String
  Fuel_Cost : PF
  Labor_Cost : PF
  Vehicle_Maintenance : PF
  Insurance : PF
  Packaging_Cost : PF
  Technology_Platform_Fee : PF
  Other_Overhead : PF
deriving DecidableEq, Repr

/-- A row of `customer_feedback.csv`; `Issue_Category` is a nullable
string column (`none` = NaN). -/
structure FeedbackRow where
  Order_ID : String
  Rating : PF
  Issue_Category : Option String
deriving DecidableEq, Repr

/-- A row of `warehouse_inventory.csv` (the columns used by the pipeline). -/
structure WarehouseRow where
  Product_Category : String
  Location : String
  Current_Stock_Units : PF
  Reorder_Level : PF
deriving DecidableEq, Repr

/-- A row of `vehicle_fleet.csv` (the columns used by the pipeline). -/
structure VehicleRow where
  Vehicle_Type : String
  Fuel_Efficiency_KM_per_L : PF
  CO2_Emissions_Kg_per_KM : PF
deriving DecidableEq, Repr

/-! ### `pd.merge(..., on='Order_ID', how='left')` -/

/-- `pd.merge(ls, rs, on=key, how='left')`: each left row is paired with
every right row sharing its key, in right-table order; a left row with no
match is kept once with null right-side fields (`comb l none`). -/
def leftMergeOn {α β γ : Type} (keyL : α → String) (keyR : β → String)
    (comb : α → Option β → γ) : List α → List β → List γ
  | [], _ => []
  | l :: ls, rs =>
      (match rs.filter (fun r => keyR r == keyL l) with
        | [] => [comb l none]
        | ms => ms.map (fun r => comb l (some r))) ++
      leftMergeOn keyL keyR comb ls rs

/-- Orders left-joined with delivery performance (`app.py` line 124). -/
structure ODRow extends OrderRow where
  Actual_Delivery_Days : PF
deriving DecidableEq, Repr

/-- ...further joined with routes (`app.py` line 125). -/
structure ODRRow extends ODRow where
  Distance_KM : PF
deriving DecidableEq, Repr

/-- ...further joined with the cost breakdown (`app.py` line 126). -/
structure ODRCRow extends ODRRow where
  Fuel_Cost : PF
  Labor_Cost : PF
  Vehicle_Maintenance : PF
  Insurance : PF
  Packaging_Cost : PF
  Technology_Platform_Fee : PF
  Other_Overhead : PF
deriving DecidableEq, Repr

/-- The fully merged table before derivations: orders + delivery + routes
+ costs + aggregated feedback (`app.py` lines 124-133). After the
feedback join, `Rating` is the per-order mean rating (NaN when unmatched)
and `Issue_Category` the per-order modal category (`none` when unmatched). -/
structure MergedRow extends ODRCRow where
  Rating : PF
  Issue_Category : Option String
deriving DecidableEq, Repr

/-! ### String ordering

Python compares strings lexicographically by code point; pandas uses this
order when `mode()` returns its values sorted ascending and when `groupby`
sorts its keys. Embedded as an executable boolean order on `List Char`. -/

/-- Python's `<` on strings, on their character lists: lexicographic by
code point. -/
def lexLtB : List Char → List Char → Bool
  | [], [] => false
  | [], _ :: _ => true
  | _ :: _, [] => false
  | a :: as, b :: bs =>
      if a.val.toNat < b.val.toNat then true
      else if b.val.toNat < a.val.toNat then false
      else lexLtB as bs

/-- Python's `<` on strings. -/
def pyLt (a b : String) : Bool := lexLtB a.data b.data

/-- Python's `<=` on strings (the negation of the reversed `<`, as in any
total order). -/
def pyLe (a b : String) : Bool := !(pyLt b a)

/-- `pyLe` as a relation, for use with `List.insertionSort`. -/
def pyLeRel (a b : String) : Prop := pyLe a b = true

instance : DecidableRel pyLeRel :=
  fun a b => instDecidableEqBool (pyLe a b) true

/-! ### Feedback aggregation (`app.py` lines 129-132) -/

/-- Occurrences of `v` in `vs` (value counting underlying `Series.mode`). -/
def countOcc (v : String) (vs : List String) : Nat :=
  (vs.filter (fun w => w == v)).length

/-- `Series.mode()` on a nullable string column: drop the NaN entries,
keep the distinct values attaining the maximal count, and return them
sorted ascending (pandas returns the modes in sorted order). -/
def seriesMode (xs : List (Option String)) : List String :=
  List.insertionSort pyLeRel
    (((xs.filterMap id).dedup).filter (fun v => decide (∀ w ∈ (xs.filterMap id).dedup,
      countOcc w (xs.filterMap id) ≤ countOcc v (xs.filterMap id))))

/-- The `Issue_Category` aggregator of `feedback_agg`:
`lambda x: x.mode()[0] if len(x.mode()) > 0 else 'None'`. -/
def modalIssue (xs : List (Option String)) : String :=
  match seriesMode xs with
  | [] => "None"
  | m :: _ => m

/-- The group keys of `feedback.groupby('Order_ID')`: the distinct
`Order_ID` values, in sorted order (`groupby` defaults to `sort=True`). -/
def aggKeys (fb : List FeedbackRow) : List String :=
  List.insertionSort pyLeRel ((fb.map (fun r => r.Order_ID)).dedup)

/-- A row of the aggregated feedback table: one row per `Order_ID`, with
the mean rating and the modal issue category of the group. -/
structure FeedbackAggRow where
  Order_ID : String
  Rating : PF
  Issue_Category : String
deriving DecidableEq, Repr

/-- `feedback.groupby('Order_ID').agg(Rating='mean', Issue_Category=modal)`
followed by `reset_index` (`app.py` lines 129-132). -/
def feedback_agg (fb : List FeedbackRow) : List FeedbackAggRow :=
  (aggKeys fb).map (fun k =>
    let g := fb.filter (fun r => r.Order_ID == k)
    { Order_ID := k
      Rating := pdMean (g.map (fun r => r.Rating))
      Issue_Category := modalIssue (g.map (fun r => r.Issue_Category)) })

/-- The four left merges of `app.py` lines 124-133 chained together. -/
def mergeAll (orders : List OrderRow) (delivery : List DeliveryRow)
    (routes : List RouteRow) (costs : List CostRow)
    (feedback : List FeedbackRow) : List MergedRow :=
  let m1 := leftMergeOn (fun o => o.Order_ID) (fun d => d.Order_ID)
    (fun o d => ODRow.mk o (match d with
      | none => PF.nan
      | some d => d.Actual_Delivery_Days)) orders delivery
  let m2 := leftMergeOn (fun o => o.Order_ID) (fun r => r.Order_ID)
    (fun o r => ODRRow.mk o (match r with
      | none => PF.nan
      | some r => r.Distance_KM)) m1 routes
  let m3 := leftMergeOn (fun o => o.Order_ID) (fun c => c.Order_ID)
    (fun o c => match c with
      | none => ODRCRow.mk o PF.nan PF.nan PF.nan PF.nan PF.nan PF.nan PF.nan
      | some c => ODRCRow.mk o c.Fuel_Cost c.Labor_Cost c.Vehicle_Maintenance
          c.Insurance c.Packaging_Cost c.Technology_Platform_Fee c.Other_Overhead) m2 costs
  leftMergeOn (fun o => o.Order_ID) (fun f => f.Order_ID)
    (fun o f => match f with
      | none => MergedRow.mk o PF.nan none
      | some f => MergedRow.mk o f.Rating (some f.Issue_Category)) m3 (feedback_agg feedback)

/-! ### Derived columns (`app.py` lines 136-162) -/

/-- A unified record: the merged row plus the derived columns of
`app.py` lines 136-151. -/
structure UnifiedRow extends MergedRow where
  Delivery_Delay_Days : PF
  On_Time : Bool
  Delay_Severity : Option String
  Total_Cost : PF
  Cost_per_KM : PF
  Revenue_to_Cost_Ratio : PF
deriving DecidableEq, Repr

/-- The bin edges of the `Delay_Severity` `pd.cut` (line 140). -/
def delayBins : List PF :=
  [PF.ninf, PF.fin 0, PF.fin 2, PF.fin 5, PF.pinf]

/-- The labels of the `Delay_Severity` `pd.cut` (line 141). -/
def delayLabels : List String :=
  ["On Time", "Minor Delay (<2 days)", "Moderate Delay (2-5 days)", "Major Delay (>5 days)"]

/-- The derived columns of `app.py` lines 136-151 computed on one merged
row: delay, on-time flag, severity bucket, total cost, and the two
zero-guarded ratios. -/
def derive (m : MergedRow) : UnifiedRow :=
  let delay := PF.sub m.Actual_Delivery_Days m.Promised_Delivery_Days
  let total := pdSum [m.Fuel_Cost, m.Labor_Cost, m.Vehicle_Maintenance, m.Insurance,
    m.Packaging_Cost, m.Technology_Platform_Fee, m.Other_Overhead]
  { toMergedRow := m
    Delivery_Delay_Days := delay
    On_Time := PF.leBool delay (PF.fin 0)
    Delay_Severity := pdCut delay delayBins delayLabels
    Total_Cost := total
    Cost_per_KM := PF.div total (replaceZeroNan m.Distance_KM)
    Revenue_to_Cost_Ratio := PF.div m.Order_Value_INR (replaceZeroNan total) }

/-- The `merged` table returned by `load_data`: the four left joins
followed by the derived columns (`app.py` lines 124-151). -/
def load_data_merged (orders : List OrderRow) (delivery : List DeliveryRow)
    (routes : List RouteRow) (costs : List CostRow)
    (feedback : List FeedbackRow) : List UnifiedRow :=
  (mergeAll orders delivery routes costs feedback).map derive

/-- A warehouse row with the derived `Stock_Ratio` and `Stock_Status`
columns (`app.py` lines 154-159). -/
structure WarehouseDerivedRow extends WarehouseRow where
  Stock_Ratio : PF
  Stock_Status : Option String
deriving DecidableEq, Repr

/-- The bin edges of the `Stock_Status` `pd.cut` (line 157). -/
def stockBins : List PF :=
  [PF.fin 0, PF.fin (1/2), PF.fin (4/5), PF.fin (6/5), PF.pinf]

/-- The labels of the `Stock_Status` `pd.cut` (line 158). -/
def stockLabels : List String :=
  ["Critical", "Low", "Normal", "Excess"]

/-- The warehouse derivations of `app.py` lines 154-159 on one row. -/
def deriveWarehouse (w : WarehouseRow) : WarehouseDerivedRow :=
  let r := PF.div w.Current_Stock_Units w.Reorder_Level
  { toWarehouseRow := w
    Stock_Ratio := r
    Stock_Status := pdCut r stockBins stockLabels }

/-- The `warehouse` table returned by `load_data` (lines 154-159 applied
to every row). -/
def load_data_warehouse (ws : List WarehouseRow) : List WarehouseDerivedRow :=
  ws.map deriveWarehouse

/-- `vehicles['Efficiency_Score']` (`app.py` line 162): a plain column
division with no zero-replacement on the divisor. -/
def efficiency_score (v : VehicleRow) : PF :=
  PF.div v.Fuel_Efficiency_KM_per_L v.CO2_Emissions_Kg_per_KM

/-! ### Consumers: alerts (`show_alerts`) and KPIs (`create_kpi_metrics`) -/

/-- The critical-stock alert records of `show_alerts` (`app.py` lines
372-382): the rows with `Stock_Status == 'Critical'`, truncated by
`head(3)`; each returned row yields exactly one alert message. -/
def show_alerts_critical_stock (ws : List WarehouseDerivedRow) : List WarehouseDerivedRow :=
  ((ws.filter (fun w => w.Stock_Status == some "Critical")).take 3)

/-- `merged['On_Time'].mean() * 100` (`app.py` line 187): the boolean
column is averaged over every row of the merged table. -/
def on_time_rate (rows : List UnifiedRow) : PF :=
  PF.mul (pdMean (rows.map (fun r => if r.On_Time then PF.fin 1 else PF.fin 0))) (PF.fin 100)

/-! ### Order lemmas for `pyLeRel` -/

lemma lexLtB_asymm : ∀ as bs : List Char, lexLtB as bs = true → lexLtB bs as = false
  | [], [], h => by simp [lexLtB] at h
  | [], _ :: _, _ => by simp [lexLtB]
  | _ :: _, [], h => by simp [lexLtB] at h
  | a :: as, b :: bs, h => by
    simp only [lexLtB] at h ⊢
    by_cases h1 : a.val.toNat < b.val.toNat
    · simp [h1, Nat.lt_asymm h1]
    · by_cases h2 : b.val.toNat < a.val.toNat
      · simp [h1, h2] at h
      · simp only [h1, h2, if_neg, if_false] at h ⊢
        exact lexLtB_asymm as bs h

lemma lexLtB_connex : ∀ as bs cs : List Char, lexLtB as cs = true →
    lexLtB as bs = true ∨ lexLtB bs cs = true
  | [], _, [], h => by simp [lexLtB] at h
  | [], [], _ :: _, _ => Or.inr (by simp [lexLtB])
  | [], _ :: _, _ :: _, _ => Or.inl (by simp [lexLtB])
  | _ :: _, _, [], h => by simp [lexLtB] at h
  | _ :: _, [], _ :: _, _ => Or.inr (by simp [lexLtB])
  | a :: as, b :: bs, c :: cs, h => by
    simp only [lexLtB] at h ⊢
    by_cases hab : a.val.toNat < b.val.toNat
    · exact Or.inl (by simp [hab])
    · by_cases hbc : b.val.toNat < c.val.toNat
      · exact Or.inr (by simp [hbc])
      · by_cases hac : a.val.toNat < c.val.toNat
        · omega
        · by_cases hca : c.val.toNat < a.val.toNat
          · simp [hac, hca] at h
          · have hba : ¬ b.val.toNat < a.val.toNat := by omega
            have hcb : ¬ c.val.toNat < b.val.toNat := by omega
            simp only [hac, hca, if_neg, if_false] at h
            rcases lexLtB_connex as bs cs h with h' | h'
            · exact Or.inl (by simp [hab, hba, h'])
            · exact Or.inr (by simp [hbc, hcb, h'])

instance : IsTotal String pyLeRel := by
  constructor
  intro a b
  simp only [pyLeRel, pyLe, pyLt, Bool.not_eq_true']
  by_cases h : lexLtB b.data a.data = true
  · exact Or.inr (lexLtB_asymm _ _ h)
  · exact Or.inl (by simpa using h)

instance : IsTrans String pyLeRel := by
  constructor
  intro a b c hab hbc
  simp only [pyLeRel, pyLe, pyLt, Bool.not_eq_true'] at hab hbc ⊢
  by_contra hca
  have hca' : lexLtB c.data a.data = true := by simpa using hca
  rcases lexLtB_connex c.data b.data a.data hca' with h | h
  · rw [hbc] at h; exact Bool.false_ne_true h
  · rw [hab] at h; exact Bool.false_ne_true h

lemma pyLeRel_refl (a : String) : pyLeRel a a := by
  simp only [pyLeRel, pyLe, pyLt, Bool.not_eq_true']
  have : ∀ l : List Char, lexLtB l l = false := by
    intro l
    induction l with
    | nil => rfl
    | cons x t ih => simp [lexLtB, ih]
  exact this a.data

/-! ### Lemmas about the left merge -/

lemma leftMergeOn_nil_right {α β γ : Type} (keyL : α → String) (keyR : β → String)
    (comb : α → Option β → γ) (ls : List α) :
    leftMergeOn keyL keyR comb ls [] = ls.map (fun l => comb l none) := by
  induction ls with
  | nil => rfl
  | cons l t ih => simp [leftMergeOn, ih]

lemma mem_leftMergeOn {α β γ : Type} {keyL : α → String} {keyR : β → String}
    {comb : α → Option β → γ} {ls : List α} {rs : List β} {x : γ}
    (hx : x ∈ leftMergeOn keyL keyR comb ls rs) :
    ∃ l ∈ ls, x = comb l none ∨ ∃ r ∈ rs, x = comb l (some r) := by
  induction ls with
  | nil => simp [leftMergeOn] at hx
  | cons l t ih =>
    simp only [leftMergeOn] at hx
    rcases List.mem_append.mp hx with h | h
    · refine ⟨l, List.mem_cons_self l t, ?_⟩
      cases hf : rs.filter (fun r => keyR r == keyL l) with
      | nil =>
        rw [hf] at h
        simp only [List.mem_singleton] at h
        exact Or.inl h
      | cons m ms =>
        rw [hf] at h
        simp only [List.mem_map] at h
        obtain ⟨r, hr, hxr⟩ := h
        have hrs : r ∈ rs := List.mem_of_mem_filter (hf ▸ hr)
        exact Or.inr ⟨r, hrs, hxr.symm⟩
    · obtain ⟨l', hl', hor⟩ := ih h
      exact ⟨l', List.mem_cons_of_mem l hl', hor⟩

lemma filter_key_length_le_one {β : Type} (keyR : β → String) (rs : List β)
    (h : (rs.map keyR).Nodup) (k : String) :
    (rs.filter (fun r => keyR r == k)).length ≤ 1 := by
  induction rs with
  | nil => simp
  | cons r t ih =>
    simp only [List.map_cons, List.nodup_cons] at h
    by_cases hk : keyR r == k
    · have ht : t.filter (fun r => keyR r == k) = [] := by
        rw [List.filter_eq_nil_iff]
        intro b hb hbk
        refine h.1 ?_
        have hbk' : keyR b = k := by simpa using hbk
        have hrk : keyR r = k := by simpa using hk
        rw [hrk, ← hbk']
        exact List.mem_map_of_mem keyR hb
      simp [List.filter_cons, hk, ht]
    · simp only [List.filter_cons, hk, if_false, Bool.false_eq_true]
      exact ih h.2

lemma leftMergeOn_map_of_nodup {α β γ : Type} (keyL : α → String) (keyR : β → String)
    (keyG : γ → String) (comb : α → Option β → γ)
    (hcomb : ∀ l ob, keyG (comb l ob) = keyL l)
    (ls : List α) (rs : List β) (h : (rs.map keyR).Nodup) :
    (leftMergeOn keyL keyR comb ls rs).map keyG = ls.map keyL := by
  induction ls with
  | nil => rfl
  | cons l t ih =>
    simp only [leftMergeOn, List.map_append, ih, List.map_cons]
    have hlen := filter_key_length_le_one keyR rs h (keyL l)
    cases hf : rs.filter (fun r => keyR r == keyL l) with
    | nil =>
      simp [hcomb]
    | cons m ms =>
      rw [hf] at hlen
      have hms : ms = [] := by
        simpa using hlen
      subst hms
      simp [hcomb]

/-! ### Lemmas about the feedback aggregate and the derived columns -/

lemma feedback_agg_map_key (fb : List FeedbackRow) :
    (feedback_agg fb).map (fun r => r.Order_ID) = aggKeys fb := by
  rw [feedback_agg, List.map_map]
  exact List.map_id _

lemma feedback_agg_keys_nodup (fb : List FeedbackRow) :
    ((feedback_agg fb).map (fun r => r.Order_ID)).Nodup := by
  rw [feedback_agg_map_key]
  have h1 : ((fb.map (fun r => r.Order_ID)).dedup).Nodup := List.nodup_dedup _
  exact ((List.perm_insertionSort pyLeRel _).nodup_iff).mpr h1

lemma PF.nan_sub (y : PF) : PF.sub PF.nan y = PF.nan := by cases y <;> rfl

lemma PF.nan_leBool (y : PF) : PF.leBool PF.nan y = false := by cases y <;> rfl

lemma PF.div_nan (x : PF) : PF.div x PF.nan = PF.nan := by cases x <;> rfl

lemma derive_delay (m : MergedRow) :
    (derive m).Delivery_Delay_Days = PF.sub m.Actual_Delivery_Days m.Promised_Delivery_Days := rfl

lemma derive_on_time (m : MergedRow) :
    (derive m).On_Time = PF.leBool ((derive m).Delivery_Delay_Days) (PF.fin 0) := rfl

lemma derive_severity (m : MergedRow) :
    (derive m).Delay_Severity = pdCut ((derive m).Delivery_Delay_Days) delayBins delayLabels := rfl

lemma derive_total_cost (m : MergedRow) :
    (derive m).Total_Cost = pdSum [m.Fuel_Cost, m.Labor_Cost, m.Vehicle_Maintenance,
      m.Insurance, m.Packaging_Cost, m.Technology_Platform_Fee, m.Other_Overhead] := rfl

lemma derive_cost_per_km (m : MergedRow) :
    (derive m).Cost_per_KM = PF.div ((derive m).Total_Cost) (replaceZeroNan m.Distance_KM) := rfl

lemma derive_revenue_ratio (m : MergedRow) :
    (derive m).Revenue_to_Cost_Ratio
      = PF.div m.Order_Value_INR (replaceZeroNan ((derive m).Total_Cost)) := rfl

/-- The delay-severity `pd.cut` on a finite (non-null) delay, written out
as the nested boundary conditions of the four right-closed bins. -/
lemma pdCut_delay_fin (q : ℚ) :
    pdCut (PF.fin q) delayBins delayLabels =
      if q ≤ 0 then some "On Time"
      else if q ≤ 2 then some "Minor Delay (<2 days)"
      else if q ≤ 5 then some "Moderate Delay (2-5 days)"
      else some "Major Delay (>5 days)" := by
  simp only [pdCut, delayBins, delayLabels, PF.ltBool, PF.leBool, Bool.true_and,
    decide_eq_true_eq]
  by_cases h0 : q ≤ 0
  · simp [h0]
  · have h0' : (0:ℚ) < q := lt_of_not_le h0
    by_cases h2 : q ≤ 2
    · simp [h0, h0', h2]
    · have h2' : (2:ℚ) < q := lt_of_not_le h2
      by_cases h5 : q ≤ 5
      · simp [h0, h0', h2, h2', h5]
      · have h5' : (5:ℚ) < q := lt_of_not_le h5
        simp [h0, h0', h2, h2', h5, h5']

/-! ### Claim C2: delay-severity boundary values -/

/-- C2: delay-severity bucketing assigns every boundary value to the lower
bucket of the pair (a delay of exactly 0 is "On Time", exactly 2 "Minor
Delay", exactly 5 "Moderate Delay"), and every finite (non-null) delay
value receives a bucket. -/
theorem C2_delay_bucket_boundaries (m : MergedRow) :
    ((derive m).Delivery_Delay_Days = PF.fin 0 →
      (derive m).Delay_Severity = some "On Time") ∧
    ((derive m).Delivery_Delay_Days = PF.fin 2 →
      (derive m).Delay_Severity = some "Minor Delay (<2 days)") ∧
    ((derive m).Delivery_Delay_Days = PF.fin 5 →
      (derive m).Delay_Severity = some "Moderate Delay (2-5 days)") ∧
    (∀ q : ℚ, (derive m).Delivery_Delay_Days = PF.fin q →
      ((derive m).Delay_Severity).isSome = true) := by
  refine ⟨fun h => ?_, fun h => ?_, fun h => ?_, fun q h => ?_⟩ <;>
    rw [derive_severity, h]
  · decide
  · decide
  · decide
  · rw [pdCut_delay_fin]
    split_ifs <;> rfl

theorem C2_delay_bucket_boundaries_witness :
    (derive ⟨⟨⟨⟨⟨"O1", PF.nan, PF.fin 2⟩, PF.fin 2⟩, PF.nan⟩, PF.nan, PF.nan, PF.nan,
        PF.nan, PF.nan, PF.nan, PF.nan⟩, PF.nan, none⟩).Delay_Severity = some "On Time" ∧
    (derive ⟨⟨⟨⟨⟨"O2", PF.nan, PF.fin 2⟩, PF.fin 4⟩, PF.nan⟩, PF.nan, PF.nan, PF.nan,
        PF.nan, PF.nan, PF.nan, PF.nan⟩, PF.nan, none⟩).Delay_Severity
      = some "Minor Delay (<2 days)" ∧
    (derive ⟨⟨⟨⟨⟨"O3", PF.nan, PF.fin 2⟩, PF.fin 7⟩, PF.nan⟩, PF.nan, PF.nan, PF.nan,
        PF.nan, PF.nan, PF.nan, PF.nan⟩, PF.nan, none⟩).Delay_Severity
      = some "Moderate Delay (2-5 days)" ∧
    ((derive ⟨⟨⟨⟨⟨"O1", PF.nan, PF.fin 2⟩, PF.fin 2⟩, PF.nan⟩, PF.nan, PF.nan, PF.nan,
        PF.nan, PF.nan, PF.nan, PF.nan⟩, PF.nan, none⟩).Delay_Severity).isSome = true :=
  ⟨(C2_delay_bucket_boundaries _).1 (by decide),
   (C2_delay_bucket_boundaries _).2.1 (by decide),
   (C2_delay_bucket_boundaries _).2.2.1 (by decide),
   (C2_delay_bucket_boundaries _).2.2.2 0 (by decide)⟩

/-! ### Claim C3: stock-status boundary values -/

/-- C3 counterexample: a warehouse row with stock ratio exactly 1/2 is
classified "Critical" by the code (`pd.cut` bins are right-closed, so 0.5
lies in the "Critical" bin (0, 0.5]), refuting the claim that it is
classified "Low". -/
theorem C3_boundary_counterexample :
    (deriveWarehouse ⟨"Electronics", "Mumbai", PF.fin 1, PF.fin 2⟩).Stock_Ratio
      = PF.fin (1/2) ∧
    (deriveWarehouse ⟨"Electronics", "Mumbai", PF.fin 1, PF.fin 2⟩).Stock_Status
      = some "Critical" ∧
    some "Critical" ≠ some "Low" := by
  decide

/-- C3 (amended): with the right-closed bins of the `pd.cut` on line 157,
each boundary value belongs to the lower-labelled bucket: a stock ratio of
exactly 0.5 classifies "Critical", exactly 0.8 "Low", exactly 1.2
"Normal". -/
theorem C3_stock_boundaries (w : WarehouseRow) :
    ((deriveWarehouse w).Stock_Ratio = PF.fin (1/2) →
      (deriveWarehouse w).Stock_Status = some "Critical") ∧
    ((deriveWarehouse w).Stock_Ratio = PF.fin (4/5) →
      (deriveWarehouse w).Stock_Status = some "Low") ∧
    ((deriveWarehouse w).Stock_Ratio = PF.fin (6/5) →
      (deriveWarehouse w).Stock_Status = some "Normal") := by
  have hs : (deriveWarehouse w).Stock_Status
      = pdCut ((deriveWarehouse w).Stock_Ratio) stockBins stockLabels := rfl
  refine ⟨fun h => ?_, fun h => ?_, fun h => ?_⟩ <;> rw [hs, h] <;> decide

theorem C3_stock_boundaries_witness :
    (deriveWarehouse ⟨"Furniture", "Delhi", PF.fin 2, PF.fin 4⟩).Stock_Status
      = some "Critical" ∧
    (deriveWarehouse ⟨"Furniture", "Pune", PF.fin 4, PF.fin 5⟩).Stock_Status
      = some "Low" ∧
    (deriveWarehouse ⟨"Furniture", "Agra", PF.fin 6, PF.fin 5⟩).Stock_Status
      = some "Normal" :=
  ⟨(C3_stock_boundaries _).1 (by decide),
   (C3_stock_boundaries _).2.1 (by decide),
   (C3_stock_boundaries _).2.2 (by decide)⟩

/-! ### Claim C5: division-by-zero yields null -/

/-- C5: a `Distance_KM` of exactly 0 yields a null `Cost_per_KM` (the zero
is replaced by NaN before dividing, so the result is NaN, not infinity and
not an error); a `Total_Cost` of exactly 0 likewise yields a null
`Revenue_to_Cost_Ratio`; and a null value is dropped from any mean
computation. -/
theorem C5_division_by_zero_null (m : MergedRow) (xs : List PF) :
    (m.Distance_KM = PF.fin 0 → (derive m).Cost_per_KM = PF.nan) ∧
    ((derive m).Total_Cost = PF.fin 0 → (derive m).Revenue_to_Cost_Ratio = PF.nan) ∧
    pdMean (PF.nan :: xs) = pdMean xs := by
  refine ⟨fun h => ?_, fun h => ?_, ?_⟩
  · rw [derive_cost_per_km, h]
    exact PF.div_nan _
  · rw [derive_revenue_ratio, h]
    exact PF.div_nan _
  · rfl

theorem C5_division_by_zero_null_witness :
    (derive ⟨⟨⟨⟨⟨"O1", PF.fin 100, PF.fin 2⟩, PF.fin 3⟩, PF.fin 0⟩, PF.fin 0, PF.fin 0,
        PF.fin 0, PF.fin 0, PF.fin 0, PF.fin 0, PF.fin 0⟩, PF.nan, none⟩).Cost_per_KM
      = PF.nan ∧
    (derive ⟨⟨⟨⟨⟨"O1", PF.fin 100, PF.fin 2⟩, PF.fin 3⟩, PF.fin 0⟩, PF.fin 0, PF.fin 0,
        PF.fin 0, PF.fin 0, PF.fin 0, PF.fin 0, PF.fin 0⟩, PF.nan, none⟩).Revenue_to_Cost_Ratio
      = PF.nan ∧
    pdMean (PF.nan :: [PF.fin 3]) = pdMean [PF.fin 3] :=
  ⟨(C5_division_by_zero_null _ [PF.fin 3]).1 (by decide),
   (C5_division_by_zero_null ⟨⟨⟨⟨⟨"O1", PF.fin 100, PF.fin 2⟩, PF.fin 3⟩, PF.fin 0⟩,
      PF.fin 0, PF.fin 0, PF.fin 0, PF.fin 0, PF.fin 0, PF.fin 0, PF.fin 0⟩,
      PF.nan, none⟩ [PF.fin 3]).2.1 (by decide),
   (C5_division_by_zero_null ⟨⟨⟨⟨⟨"O1", PF.fin 100, PF.fin 2⟩, PF.fin 3⟩, PF.fin 0⟩,
      PF.fin 0, PF.fin 0, PF.fin 0, PF.fin 0, PF.fin 0, PF.fin 0, PF.fin 0⟩,
      PF.nan, none⟩ [PF.fin 3]).2.2⟩

/-! ### Claim C6: Efficiency_Score at zero emissions -/

/-- C6 (the code evaluated at the failing input): with CO2 emissions
exactly 0 the code computes `Efficiency_Score` = +infinity, not null: the
divisor on line 162 is not zero-guarded, unlike the `.replace(0, np.nan)`
guards on lines 150-151, so the division-by-zero policy the spec states is
not applied here. -/
theorem C6_efficiency_divzero_inf :
    efficiency_score ⟨"Small Truck", PF.fin 10, PF.fin 0⟩ = PF.pinf ∧
    PF.pinf ≠ PF.nan := by
  decide

/-! ### Claim C9: a stock ratio of exactly 0 is null, not Critical -/

/-- C9: a warehouse row with zero current stock and a positive reorder
level has stock ratio 0, which falls outside every status bin (the
leftmost bin edge 0 is excluded by `pd.cut`), so its `Stock_Status` is
null — not "Critical" — and such a row never appears among the
critical-stock alerts. -/
theorem C9_zero_ratio_not_critical (w : WarehouseRow) (q : ℚ) (hq : 0 < q)
    (hc : w.Current_Stock_Units = PF.fin 0) (hr : w.Reorder_Level = PF.fin q) :
    (deriveWarehouse w).Stock_Status = none ∧
    ∀ ws : List WarehouseDerivedRow, deriveWarehouse w ∉ show_alerts_critical_stock ws := by
  have hratio : (deriveWarehouse w).Stock_Ratio = PF.fin 0 := by
    have h0 : (deriveWarehouse w).Stock_Ratio
        = PF.div w.Current_Stock_Units w.Reorder_Level := rfl
    rw [h0, hc, hr]
    simp [PF.div, hq.ne']
  have hstatus : (deriveWarehouse w).Stock_Status = none := by
    have h1 : (deriveWarehouse w).Stock_Status
        = pdCut ((deriveWarehouse w).Stock_Ratio) stockBins stockLabels := rfl
    rw [h1, hratio]
    decide
  refine ⟨hstatus, fun ws hmem => ?_⟩
  have h2 := List.mem_of_mem_take hmem
  have h3 := (List.mem_filter.mp h2).2
  rw [hstatus] at h3
  simp at h3

theorem C9_zero_ratio_not_critical_witness :
    (deriveWarehouse ⟨"Apparel", "Delhi", PF.fin 0, PF.fin 5⟩).Stock_Status = none ∧
    deriveWarehouse ⟨"Apparel", "Delhi", PF.fin 0, PF.fin 5⟩ ∉
      show_alerts_critical_stock (load_data_warehouse [⟨"Apparel", "Delhi", PF.fin 0, PF.fin 5⟩]) := by
  have h := C9_zero_ratio_not_critical ⟨"Apparel", "Delhi", PF.fin 0, PF.fin 5⟩ 5
    (by norm_num) rfl rfl
  exact ⟨h.1, h.2 _⟩

/-! ### Claim C4: Total_Cost is the null-as-zero sum of the seven components -/

/-- The finite value of a float entry, with NaN (and infinities) read as 0;
the value a skip-NA sum contributes for that entry. -/
def finOrZero : PF → ℚ
  | PF.fin q => q
  | _ => 0

lemma foldl_add_fin : ∀ (t : List PF) (a : ℚ), (∀ x ∈ t, ∃ q, x = PF.fin q) →
    t.foldl PF.add (PF.fin a) = PF.fin (a + (t.map finOrZero).sum)
  | [], a, _ => by simp
  | x :: t, a, h => by
    obtain ⟨q, rfl⟩ := h x (List.mem_cons_self x t)
    have ih := foldl_add_fin t (a + q) (fun y hy => h y (List.mem_cons_of_mem _ hy))
    rw [List.foldl_cons, show PF.add (PF.fin a) (PF.fin q) = PF.fin (a + q) from rfl, ih]
    congr 1
    simp only [List.map_cons, List.sum_cons, finOrZero]
    ring

lemma sum_finOrZero_filter (t : List PF) :
    ((t.filter (fun x => !x.isNan)).map finOrZero).sum = (t.map finOrZero).sum := by
  induction t with
  | nil => rfl
  | cons x t ih =>
    cases x with
    | nan => simpa [List.filter_cons, PF.isNan, finOrZero] using ih
    | pinf => simpa [List.filter_cons, PF.isNan, finOrZero] using ih
    | ninf => simpa [List.filter_cons, PF.isNan, finOrZero] using ih
    | fin q => simpa [List.filter_cons, PF.isNan, finOrZero] using ih

lemma pdSum_fin_or_nan (xs : List PF)
    (h : ∀ x ∈ xs, x = PF.nan ∨ ∃ q, x = PF.fin q) :
    pdSum xs = PF.fin ((xs.map finOrZero).sum) := by
  have hall : ∀ x ∈ xs.filter (fun x => !x.isNan), ∃ q, x = PF.fin q := by
    intro x hx
    have hx1 := List.mem_of_mem_filter hx
    have hx2 := List.of_mem_filter hx
    rcases h x hx1 with rfl | hq
    · simp [PF.isNan] at hx2
    · exact hq
  unfold pdSum
  rw [foldl_add_fin _ 0 hall, sum_finOrZero_filter]
  simp

/-- C4: `Total_Cost` is the sum of the seven cost components with every
null component contributing 0 (pandas `sum` skips NaN); in particular a
unified record with no matching cost row — every row when the cost table
is empty — has `Total_Cost` exactly 0. -/
theorem C4_total_cost (m : MergedRow)
    (h : ∀ x ∈ [m.Fuel_Cost, m.Labor_Cost, m.Vehicle_Maintenance, m.Insurance,
      m.Packaging_Cost, m.Technology_Platform_Fee, m.Other_Overhead],
      x = PF.nan ∨ ∃ q, x = PF.fin q) :
    (derive m).Total_Cost = PF.fin (finOrZero m.Fuel_Cost + finOrZero m.Labor_Cost
      + finOrZero m.Vehicle_Maintenance + finOrZero m.Insurance + finOrZero m.Packaging_Cost
      + finOrZero m.Technology_Platform_Fee + finOrZero m.Other_Overhead) ∧
    ∀ (orders : List OrderRow) (delivery : List DeliveryRow) (routes : List RouteRow)
      (feedback : List FeedbackRow) (u : UnifiedRow),
      u ∈ load_data_merged orders delivery routes [] feedback → u.Total_Cost = PF.fin 0 := by
  constructor
  · rw [derive_total_cost, pdSum_fin_or_nan _ h]
    congr 1
    simp only [List.map_cons, List.map_nil, List.sum_cons, List.sum_nil]
    ring
  · intro orders delivery routes feedback u hu
    simp only [load_data_merged, List.mem_map] at hu
    obtain ⟨mm, hmm, rfl⟩ := hu
    simp only [mergeAll] at hmm
    rw [leftMergeOn_nil_right] at hmm
    obtain ⟨o3, ho3, hor⟩ := mem_leftMergeOn hmm
    obtain ⟨l2, hl2, rfl⟩ := List.mem_map.mp ho3
    rcases hor with rfl | ⟨r, hr, rfl⟩ <;> rfl

theorem C4_total_cost_witness :
    (derive ⟨⟨⟨⟨⟨"O1", PF.fin 200, PF.fin 2⟩, PF.fin 4⟩, PF.fin 10⟩, PF.fin 100, PF.fin 50,
        PF.fin 0, PF.fin 0, PF.fin 0, PF.fin 0, PF.nan⟩, PF.nan, none⟩).Total_Cost
      = PF.fin 150 ∧
    (derive ⟨⟨⟨⟨⟨"O9", PF.fin 200, PF.fin 2⟩, PF.nan⟩, PF.nan⟩, PF.nan, PF.nan,
        PF.nan, PF.nan, PF.nan, PF.nan, PF.nan⟩, PF.nan, none⟩).Total_Cost = PF.fin 0 := by
  have h := C4_total_cost ⟨⟨⟨⟨⟨"O1", PF.fin 200, PF.fin 2⟩, PF.fin 4⟩, PF.fin 10⟩,
    PF.fin 100, PF.fin 50, PF.fin 0, PF.fin 0, PF.fin 0, PF.fin 0, PF.nan⟩, PF.nan, none⟩
    (by
      intro x hx
      simp only [List.mem_cons, List.not_mem_nil, or_false] at hx
      rcases hx with rfl | rfl | rfl | rfl | rfl | rfl | rfl
      · exact Or.inr ⟨100, rfl⟩
      · exact Or.inr ⟨50, rfl⟩
      · exact Or.inr ⟨0, rfl⟩
      · exact Or.inr ⟨0, rfl⟩
      · exact Or.inr ⟨0, rfl⟩
      · exact Or.inr ⟨0, rfl⟩
      · exact Or.inl rfl)
  refine ⟨?_, ?_⟩
  · rw [h.1]
    norm_num [finOrZero]
  · exact h.2 [⟨"O9", PF.fin 200, PF.fin 2⟩] [] [] []
      (derive ⟨⟨⟨⟨⟨"O9", PF.fin 200, PF.fin 2⟩, PF.nan⟩, PF.nan⟩, PF.nan, PF.nan,
        PF.nan, PF.nan, PF.nan, PF.nan, PF.nan⟩, PF.nan, none⟩) (by decide)

/-! ### Claim C8: critical-stock alerts are capped at the first three -/

/-- C8: for a warehouse table with n rows whose `Stock_Status` is
"Critical", the alert scan emits exactly min(n, 3) critical-stock alerts,
and they are the first min(n, 3) such rows in input order. -/
theorem C8_critical_stock_alert_cap (ws : List WarehouseDerivedRow) (n : ℕ)
    (h : (ws.filter (fun w => w.Stock_Status == some "Critical")).length = n) :
    (show_alerts_critical_stock ws).length = min n 3 ∧
    show_alerts_critical_stock ws
      = (ws.filter (fun w => w.Stock_Status == some "Critical")).take (min n 3) := by
  subst h
  constructor
  · simp [show_alerts_critical_stock, List.length_take, Nat.min_comm]
  · rcases le_or_lt 3 (ws.filter (fun w => w.Stock_Status == some "Critical")).length
      with h3 | h3
    · rw [min_eq_right h3]
      rfl
    · rw [min_eq_left (le_of_lt h3), List.take_length, show_alerts_critical_stock,
        List.take_of_length_le (le_of_lt h3)]

theorem C8_critical_stock_alert_cap_witness :
    (show_alerts_critical_stock (load_data_warehouse
      [⟨"Electronics", "Mumbai", PF.fin 1, PF.fin 10⟩,
       ⟨"Apparel", "Delhi", PF.fin 2, PF.fin 10⟩,
       ⟨"Furniture", "Pune", PF.fin 3, PF.fin 10⟩,
       ⟨"Toys", "Agra", PF.fin 4, PF.fin 10⟩,
       ⟨"Books", "Goa", PF.fin 5, PF.fin 10⟩])).length = min 5 3 ∧
    show_alerts_critical_stock (load_data_warehouse
      [⟨"Electronics", "Mumbai", PF.fin 1, PF.fin 10⟩,
       ⟨"Apparel", "Delhi", PF.fin 2, PF.fin 10⟩,
       ⟨"Furniture", "Pune", PF.fin 3, PF.fin 10⟩,
       ⟨"Toys", "Agra", PF.fin 4, PF.fin 10⟩,
       ⟨"Books", "Goa", PF.fin 5, PF.fin 10⟩])
      = ((load_data_warehouse
      [⟨"Electronics", "Mumbai", PF.fin 1, PF.fin 10⟩,
       ⟨"Apparel", "Delhi", PF.fin 2, PF.fin 10⟩,
       ⟨"Furniture", "Pune", PF.fin 3, PF.fin 10⟩,
       ⟨"Toys", "Agra", PF.fin 4, PF.fin 10⟩,
       ⟨"Books", "Goa", PF.fin 5, PF.fin 10⟩]).filter
        (fun w => w.Stock_Status == some "Critical")).take (min 5 3) :=
  C8_critical_stock_alert_cap _ 5 (by decide)

/-! ### Claim C10: a missing delivery row counts as not-on-time -/

lemma indicator_foldl (rows : List UnifiedRow) (a : ℚ) :
    (rows.map (fun r => if r.On_Time then PF.fin 1 else PF.fin 0)).foldl PF.add (PF.fin a)
      = PF.fin (a + ((rows.filter (fun r => r.On_Time)).length : ℚ)) := by
  induction rows generalizing a with
  | nil => simp
  | cons r t ih =>
    by_cases hr : r.On_Time
    · simp only [List.map_cons, hr, if_true, List.foldl_cons]
      rw [show PF.add (PF.fin a) (PF.fin 1) = PF.fin (a + 1) from rfl, ih,
        List.filter_cons_of_pos (by simpa using hr)]
      congr 1
      simp only [List.length_cons]
      push_cast
      ring
    · have hr' : r.On_Time = false := by simpa using hr
      simp only [List.map_cons, hr', Bool.false_eq_true, if_false, List.foldl_cons]
      rw [show PF.add (PF.fin a) (PF.fin 0) = PF.fin (a + 0) from rfl, ih,
        List.filter_cons_of_neg (by simp [hr'])]
      congr 1
      ring

lemma pdMean_indicator (rows : List UnifiedRow) (h : rows ≠ []) :
    pdMean (rows.map (fun r => if r.On_Time then PF.fin 1 else PF.fin 0))
      = PF.fin (((rows.filter (fun r => r.On_Time)).length : ℚ) / (rows.length : ℚ)) := by
  have hfilter : (rows.map (fun r => if r.On_Time then PF.fin 1 else PF.fin 0)).filter
      (fun x => !x.isNan) = rows.map (fun r => if r.On_Time then PF.fin 1 else PF.fin 0) := by
    apply List.filter_eq_self.mpr
    intro x hx
    obtain ⟨r, hr, rfl⟩ := List.mem_map.mp hx
    by_cases hb : r.On_Time <;> simp [hb, PF.isNan]
  have hne : ((rows.map (fun r => if r.On_Time then PF.fin 1 else PF.fin 0)).isEmpty) = false := by
    cases rows with
    | nil => exact absurd rfl h
    | cons a t => rfl
  simp only [pdMean, hfilter, hne, Bool.false_eq_true, if_false]
  rw [indicator_foldl rows 0, List.length_map]
  have hlen0 : ((rows.length : ℚ)) ≠ 0 := by
    have hn : rows.length ≠ 0 := by
      cases rows with
      | nil => exact absurd rfl h
      | cons a t => simp
    exact_mod_cast hn
  simp [PF.div, hlen0]

/-- C10: a unified record whose left join found no delivery row (null
`Actual_Delivery_Days`) gets a null `Delivery_Delay_Days`, but an
`On_Time` of `False` (a NaN comparison is `False`, not null), and the
on-time-rate KPI averages the boolean column over every row — such records
lower the rate rather than being excluded from it. -/
theorem C10_missing_delivery_counts_late (m : MergedRow) (rows : List UnifiedRow)
    (hm : m.Actual_Delivery_Days = PF.nan) (hrows : rows ≠ []) :
    (derive m).Delivery_Delay_Days = PF.nan ∧
    (derive m).On_Time = false ∧
    on_time_rate rows = PF.fin ((((rows.filter (fun r => r.On_Time)).length : ℚ)
      / (rows.length : ℚ)) * 100) := by
  have hd : (derive m).Delivery_Delay_Days = PF.nan := by
    rw [derive_delay, hm, PF.nan_sub]
  refine ⟨hd, ?_, ?_⟩
  · rw [derive_on_time, hd, PF.nan_leBool]
  · rw [on_time_rate, pdMean_indicator rows hrows]
    rfl

theorem C10_missing_delivery_counts_late_witness :
    (derive ⟨⟨⟨⟨⟨"O2", PF.fin 50, PF.fin 3⟩, PF.nan⟩, PF.nan⟩, PF.nan, PF.nan, PF.nan,
        PF.nan, PF.nan, PF.nan, PF.nan⟩, PF.nan, none⟩).Delivery_Delay_Days = PF.nan ∧
    (derive ⟨⟨⟨⟨⟨"O2", PF.fin 50, PF.fin 3⟩, PF.nan⟩, PF.nan⟩, PF.nan, PF.nan, PF.nan,
        PF.nan, PF.nan, PF.nan, PF.nan⟩, PF.nan, none⟩).On_Time = false ∧
    on_time_rate (load_data_merged [⟨"O1", PF.fin 100, PF.fin 2⟩, ⟨"O2", PF.fin 50, PF.fin 3⟩]
        [⟨"O1", PF.fin 2⟩] [] [] [])
      = PF.fin (((((load_data_merged [⟨"O1", PF.fin 100, PF.fin 2⟩, ⟨"O2", PF.fin 50, PF.fin 3⟩]
        [⟨"O1", PF.fin 2⟩] [] [] []).filter (fun r => r.On_Time)).length : ℚ)
      / ((load_data_merged [⟨"O1", PF.fin 100, PF.fin 2⟩, ⟨"O2", PF.fin 50, PF.fin 3⟩]
        [⟨"O1", PF.fin 2⟩] [] [] []).length : ℚ)) * 100) :=
  C10_missing_delivery_counts_late _ _ rfl (by decide)

/-! ### Claim C1: left-join cardinality preservation -/

lemma load_data_merged_map_key (orders : List OrderRow) (delivery : List DeliveryRow)
    (routes : List RouteRow) (costs : List CostRow) (feedback : List FeedbackRow)
    (hd : (delivery.map (fun d => d.Order_ID)).Nodup)
    (hr : (routes.map (fun r => r.Order_ID)).Nodup)
    (hc : (costs.map (fun c => c.Order_ID)).Nodup) :
    (load_data_merged orders delivery routes costs feedback).map (fun u => u.Order_ID)
      = orders.map (fun o => o.Order_ID) := by
  rw [load_data_merged, List.map_map]
  show (mergeAll orders delivery routes costs feedback).map
    (fun m : MergedRow => m.Order_ID) = orders.map (fun o => o.Order_ID)
  simp only [mergeAll]
  rw [leftMergeOn_map_of_nodup _ _ (fun m : MergedRow => m.Order_ID) _
        (fun l ob => by cases ob <;> rfl) _ _ (feedback_agg_keys_nodup feedback),
      leftMergeOn_map_of_nodup _ _ (fun o : ODRCRow => o.Order_ID) _
        (fun l ob => by cases ob <;> rfl) _ _ hc,
      leftMergeOn_map_of_nodup _ _ (fun o : ODRRow => o.Order_ID) _
        (fun l ob => by cases ob <;> rfl) _ _ hr,
      leftMergeOn_map_of_nodup _ _ (fun o : ODRow => o.Order_ID) _
        (fun l ob => by cases ob <;> rfl) _ _ hd]

/-- C1 counterexample: when a right-side table carries the same `Order_ID`
twice (here the delivery table), the left join duplicates the matching
order row, so the unified set's `Order_ID`s are not unique: the claim as
stated fails "for every combination of right-side tables". -/
theorem C1_duplicate_right_key_counterexample :
    ¬ (((load_data_merged [⟨"O1", PF.fin 100, PF.fin 2⟩]
          [⟨"O1", PF.fin 3⟩, ⟨"O1", PF.fin 4⟩] [] [] []).map (fun u => u.Order_ID)).Nodup ∧
        (load_data_merged [⟨"O1", PF.fin 100, PF.fin 2⟩]
          [⟨"O1", PF.fin 3⟩, ⟨"O1", PF.fin 4⟩] [] [] []).map (fun u => u.Order_ID)
          = [(⟨"O1", PF.fin 100, PF.fin 2⟩ : OrderRow)].map (fun o => o.Order_ID)) := by
  decide

/-- C1 (amended): when each right-side table (delivery, routes, costs) has
pairwise-distinct `Order_ID`s — the aggregated feedback table always does,
being a groupby result — the unified record set carries exactly the
`Order_ID` column of the Orders input, row for row; if additionally the
Orders input's `Order_ID`s are unique, so are the unified set's. -/
theorem C1_left_join_cardinality (orders : List OrderRow) (delivery : List DeliveryRow)
    (routes : List RouteRow) (costs : List CostRow) (feedback : List FeedbackRow)
    (hd : (delivery.map (fun d => d.Order_ID)).Nodup)
    (hr : (routes.map (fun r => r.Order_ID)).Nodup)
    (hc : (costs.map (fun c => c.Order_ID)).Nodup) :
    (load_data_merged orders delivery routes costs feedback).map (fun u => u.Order_ID)
      = orders.map (fun o => o.Order_ID) ∧
    ((orders.map (fun o => o.Order_ID)).Nodup →
      ((load_data_merged orders delivery routes costs feedback).map
        (fun u => u.Order_ID)).Nodup) := by
  have key := load_data_merged_map_key orders delivery routes costs feedback hd hr hc
  exact ⟨key, fun ho => key ▸ ho⟩

theorem C1_left_join_cardinality_witness :
    (load_data_merged [⟨"O1", PF.fin 100, PF.fin 2⟩, ⟨"O2", PF.fin 50, PF.fin 3⟩]
        [⟨"O1", PF.fin 3⟩] [⟨"O1", PF.fin 12⟩]
        [⟨"O1", PF.fin 10, PF.fin 5, PF.fin 1, PF.fin 1, PF.fin 1, PF.fin 1, PF.fin 1⟩]
        [⟨"O1", PF.fin 4, some "Damaged"⟩]).map (fun u => u.Order_ID)
      = [(⟨"O1", PF.fin 100, PF.fin 2⟩ : OrderRow), ⟨"O2", PF.fin 50, PF.fin 3⟩].map
          (fun o => o.Order_ID) ∧
    ((load_data_merged [⟨"O1", PF.fin 100, PF.fin 2⟩, ⟨"O2", PF.fin 50, PF.fin 3⟩]
        [⟨"O1", PF.fin 3⟩] [⟨"O1", PF.fin 12⟩]
        [⟨"O1", PF.fin 10, PF.fin 5, PF.fin 1, PF.fin 1, PF.fin 1, PF.fin 1, PF.fin 1⟩]
        [⟨"O1", PF.fin 4, some "Damaged"⟩]).map (fun u => u.Order_ID)).Nodup := by
  have h := C1_left_join_cardinality
    [⟨"O1", PF.fin 100, PF.fin 2⟩, ⟨"O2", PF.fin 50, PF.fin 3⟩]
    [⟨"O1", PF.fin 3⟩] [⟨"O1", PF.fin 12⟩]
    [⟨"O1", PF.fin 10, PF.fin 5, PF.fin 1, PF.fin 1, PF.fin 1, PF.fin 1, PF.fin 1⟩]
    [⟨"O1", PF.fin 4, some "Damaged"⟩] (by decide) (by decide) (by decide)
  exact ⟨h.1, h.2 (by decide)⟩

/-! ### Claim C7: feedback aggregation and the modal issue category -/

/-- The non-null `Issue_Category` values of order `k`'s feedback group, in
input order: the values over which `Series.mode` is computed. -/
def groupCats (fb : List FeedbackRow) (k : String) : List String :=
  ((fb.filter (fun r => r.Order_ID == k)).map (fun r => r.Issue_Category)).filterMap id

lemma exists_max_count (vs : List String) : ∀ (l : List String), l ≠ [] →
    ∃ v ∈ l, ∀ w ∈ l, countOcc w vs ≤ countOcc v vs
  | [], h => absurd rfl h
  | [a], _ => ⟨a, List.mem_singleton_self a, by
      intro w hw
      rw [List.mem_singleton.mp hw]⟩
  | a :: b :: t, _ => by
    obtain ⟨v, hv, hmax⟩ := exists_max_count vs (b :: t) (by simp)
    rcases le_total (countOcc v vs) (countOcc a vs) with h | h
    · refine ⟨a, List.mem_cons_self _ _, ?_⟩
      intro w hw
      rcases List.mem_cons.mp hw with rfl | hw'
      · exact le_refl _
      · exact (hmax w hw').trans h
    · refine ⟨v, List.mem_cons_of_mem _ hv, ?_⟩
      intro w hw
      rcases List.mem_cons.mp hw with rfl | hw'
      · exact h
      · exact hmax w hw'

lemma seriesMode_eq_nil_iff (xs : List (Option String)) :
    seriesMode xs = [] ↔ xs.filterMap id = [] := by
  constructor
  · intro h
    by_contra hne
    have huniq : (xs.filterMap id).dedup ≠ [] := by
      simpa [List.dedup_eq_nil] using hne
    obtain ⟨v, hv, hmax⟩ := exists_max_count (xs.filterMap id) _ huniq
    have hvf : v ∈ (((xs.filterMap id).dedup).filter (fun v =>
        decide (∀ w ∈ (xs.filterMap id).dedup,
          countOcc w (xs.filterMap id) ≤ countOcc v (xs.filterMap id)))) := by
      rw [List.mem_filter]
      exact ⟨hv, by simpa using hmax⟩
    have hvs : v ∈ seriesMode xs := by
      rw [seriesMode]
      exact ((List.perm_insertionSort pyLeRel _).mem_iff).mpr hvf
    rw [h] at hvs
    exact List.not_mem_nil v hvs
  · intro h
    simp [seriesMode, h]

lemma modalIssue_spec (xs : List (Option String)) :
    (xs.filterMap id = [] → modalIssue xs = "None") ∧
    (xs.filterMap id ≠ [] →
      modalIssue xs ∈ xs.filterMap id ∧
      (∀ v ∈ xs.filterMap id,
        countOcc v (xs.filterMap id) ≤ countOcc (modalIssue xs) (xs.filterMap id)) ∧
      (∀ v ∈ xs.filterMap id,
        countOcc v (xs.filterMap id) = countOcc (modalIssue xs) (xs.filterMap id) →
        pyLeRel (modalIssue xs) v)) := by
  constructor
  · intro h
    rw [modalIssue, (seriesMode_eq_nil_iff xs).mpr h]
  · intro hne
    have hsm : seriesMode xs ≠ [] := fun h => hne ((seriesMode_eq_nil_iff xs).mp h)
    obtain ⟨m, rest, hm⟩ := List.exists_cons_of_ne_nil hsm
    have hmodal : modalIssue xs = m := by rw [modalIssue, hm]
    have hmem : m ∈ (((xs.filterMap id).dedup).filter (fun v =>
        decide (∀ w ∈ (xs.filterMap id).dedup,
          countOcc w (xs.filterMap id) ≤ countOcc v (xs.filterMap id)))) := by
      have hms : m ∈ seriesMode xs := hm ▸ List.mem_cons_self m rest
      rw [seriesMode] at hms
      exact ((List.perm_insertionSort pyLeRel _).mem_iff).mp hms
    have hmd := List.mem_filter.mp hmem
    have hP : ∀ w ∈ (xs.filterMap id).dedup,
        countOcc w (xs.filterMap id) ≤ countOcc m (xs.filterMap id) := by
      simpa using hmd.2
    have hmv : m ∈ xs.filterMap id := List.mem_dedup.mp hmd.1
    rw [hmodal]
    refine ⟨hmv, ?_, ?_⟩
    · intro v hv
      exact hP v (List.mem_dedup.mpr hv)
    · intro v hv hcount
      have hvf : v ∈ (((xs.filterMap id).dedup).filter (fun v =>
          decide (∀ w ∈ (xs.filterMap id).dedup,
            countOcc w (xs.filterMap id) ≤ countOcc v (xs.filterMap id)))) := by
        rw [List.mem_filter]
        refine ⟨List.mem_dedup.mpr hv, ?_⟩
        simp only [decide_eq_true_eq]
        intro w hw
        rw [hcount]
        exact hP w hw
      have hvs : v ∈ seriesMode xs := by
        rw [seriesMode]
        exact ((List.perm_insertionSort pyLeRel _).mem_iff).mpr hvf
      rw [hm] at hvs
      rcases List.mem_cons.mp hvs with rfl | hvrest
      · exact pyLeRel_refl _
      · have hsorted : (seriesMode xs).Sorted pyLeRel := by
          rw [seriesMode]
          exact List.sorted_insertionSort pyLeRel _
        rw [hm] at hsorted
        exact List.rel_of_sorted_cons hsorted v hvrest

/-- C7 counterexample: a group with two equally-frequent categories, "B"
first in the stable input order. The code computes `mode()[0]` = "A":
pandas returns the modes sorted ascending, so the tie breaks to the
smallest value, not to the first-encountered one as the claim states. -/
theorem C7_tie_break_counterexample :
    (feedback_agg [⟨"O1", PF.fin 5, some "B"⟩, ⟨"O1", PF.fin 3, some "A"⟩]).map
      (fun r => r.Issue_Category) = ["A"] ∧ "A" ≠ "B" := by
  decide

/-- C7 (amended): for every group key, the aggregate row carries the mean
rating of the group (pandas `mean` ignores nulls) and a modal (maximally
frequent, among the group's non-null categories) `Issue_Category`; ties
among equally frequent values break deterministically to the smallest
value in Python string order (pandas sorts the modes ascending and the
code takes `mode()[0]`), and the literal "None" is produced when the group
has no non-null category. -/
theorem C7_feedback_agg_modal (fb : List FeedbackRow) (k : String) (hk : k ∈ aggKeys fb) :
    ∃ row ∈ feedback_agg fb, row.Order_ID = k ∧
      row.Rating = pdMean ((fb.filter (fun r => r.Order_ID == k)).map (fun r => r.Rating)) ∧
      (groupCats fb k = [] → row.Issue_Category = "None") ∧
      (groupCats fb k ≠ [] →
        row.Issue_Category ∈ groupCats fb k ∧
        (∀ v ∈ groupCats fb k,
          countOcc v (groupCats fb k) ≤ countOcc row.Issue_Category (groupCats fb k)) ∧
        (∀ v ∈ groupCats fb k,
          countOcc v (groupCats fb k) = countOcc row.Issue_Category (groupCats fb k) →
          pyLeRel row.Issue_Category v)) := by
  refine ⟨{ Order_ID := k,
            Rating := pdMean ((fb.filter (fun r => r.Order_ID == k)).map (fun r => r.Rating)),
            Issue_Category := modalIssue ((fb.filter (fun r => r.Order_ID == k)).map
              (fun r => r.Issue_Category)) }, ?_, rfl, rfl, ?_, ?_⟩
  · rw [feedback_agg]
    exact List.mem_map_of_mem _ hk
  · intro h
    exact (modalIssue_spec _).1 h
  · intro hne
    have hne' : ((fb.filter (fun r => r.Order_ID == k)).map
        (fun r => r.Issue_Category)).filterMap id ≠ [] := hne
    exact (modalIssue_spec ((fb.filter (fun r => r.Order_ID == k)).map
      (fun r => r.Issue_Category))).2 hne'

theorem C7_feedback_agg_modal_witness :
    ∃ row ∈ feedback_agg [⟨"O1", PF.fin 5, some "Damaged"⟩, ⟨"O1", PF.fin 3, none⟩],
      row.Order_ID = "O1" ∧
      row.Rating = pdMean (([⟨"O1", PF.fin 5, some "Damaged"⟩,
        (⟨"O1", PF.fin 3, none⟩ : FeedbackRow)].filter
          (fun r => r.Order_ID == "O1")).map (fun r => r.Rating)) ∧
      (groupCats [⟨"O1", PF.fin 5, some "Damaged"⟩, ⟨"O1", PF.fin 3, none⟩] "O1" = [] →
        row.Issue_Category = "None") ∧
      (groupCats [⟨"O1", PF.fin 5, some "Damaged"⟩, ⟨"O1", PF.fin 3, none⟩] "O1" ≠ [] →
        row.Issue_Category
            ∈ groupCats [⟨"O1", PF.fin 5, some "Damaged"⟩, ⟨"O1", PF.fin 3, none⟩] "O1" ∧
        (∀ v ∈ groupCats [⟨"O1", PF.fin 5, some "Damaged"⟩, ⟨"O1", PF.fin 3, none⟩] "O1",
          countOcc v (groupCats [⟨"O1", PF.fin 5, some "Damaged"⟩, ⟨"O1", PF.fin 3, none⟩] "O1")
            ≤ countOcc row.Issue_Category
              (groupCats [⟨"O1", PF.fin 5, some "Damaged"⟩, ⟨"O1", PF.fin 3, none⟩] "O1")) ∧
        (∀ v ∈ groupCats [⟨"O1", PF.fin 5, some "Damaged"⟩, ⟨"O1", PF.fin 3, none⟩] "O1",
          countOcc v (groupCats [⟨"O1", PF.fin 5, some "Damaged"⟩, ⟨"O1", PF.fin 3, none⟩] "O1")
            = countOcc row.Issue_Category
              (groupCats [⟨"O1", PF.fin 5, some "Damaged"⟩, ⟨"O1", PF.fin 3, none⟩] "O1") →
          pyLeRel row.Issue_Category v)) :=
  C7_feedback_agg_modal [⟨"O1", PF.fin 5, some "Damaged"⟩, ⟨"O1", PF.fin 3, none⟩] "O1"
    (by decide)
